import Mathlib

/-!
Verification development for the MedMind physiology RAG system.

This file gives a shallow embedding, in Lean 4, of the core components of
the repository (src/physiology_rag/core/): the in-memory LRU/TTL cache
(cache_manager.py), the query cache, the batch embedding generators
(embeddings_service.py, async_embeddings.py), the answer attribution
mapper (answer_attribution.py) and the semantic chunker
(advanced_chunking.py), together with theorems about the claims of the
specification.

Modelling conventions:
- Python strings are Lean String values; character-level algorithms work
  on the underlying List Char.  Python len(s) is the character count.
- Python floats are modelled as exact rationals, represented by the
  kernel-friendly integer-pair type PyFloat below.
- time.time() values are passed explicitly as PyFloat arguments.
- Code that can raise and is caught by a caller returns Option.
- The md5 content hash of cache_manager._generate_key is an arbitrary
  function parameter (md5 : String -> String): every theorem about key
  handling holds for every choice of digest function.
-/

namespace MedMind

/-- The open-brace character, written via its code point. -/
def lbraceChar : Char := Char.ofNat 123

/-- The close-brace character, written via its code point. -/
def rbraceChar : Char := Char.ofNat 125

/-- Dropping a prefix while a test holds never lengthens a list. -/
theorem lengthDropWhileLe (p : α → Bool) (l : List α) :
    (l.dropWhile p).length ≤ l.length := by
  induction l with
  | nil => simp [List.dropWhile]
  | cons a l ih =>
    simp only [List.dropWhile]
    cases p a
    · simp
    · simp
      omega

/-- Python str whitespace (ASCII subset of the characters stripped or split
on by str.strip and str.split and matched by the regex class backslash-s). -/
def isPyWsChar (c : Char) : Bool :=
  c == ' ' || c == '\t' || c == '\n' || c == '\r' || c == '\x0b' || c == '\x0c'

/-- Python str.strip on a character list: drop whitespace at both ends. -/
def pyStripL (l : List Char) : List Char :=
  ((l.dropWhile isPyWsChar).reverse.dropWhile isPyWsChar).reverse

/-- Python str.strip. -/
def pyStrip (s : String) : String := ⟨pyStripL s.data⟩

/-- Python str.lower (ASCII case folding; the claims only use ASCII data). -/
def pyLower (s : String) : String := ⟨s.data.map Char.toLower⟩

/-- Python s[:n] character slicing. -/
def pyTake (n : ℕ) (s : String) : String := ⟨s.data.take n⟩

/-- Exact rational numbers representing Python float values (and
time.time() timestamps).  The representation is an integer pair with a
positive denominator by construction, compared and combined by integer
cross-multiplication; it is kept unnormalized so that every arithmetic
step is a handful of integer operations that the kernel evaluates
directly.  The toRat interpretation below ties the representation to the
mathematical rationals. -/
structure PyFloat where
  num : ℤ
  den : ℤ

/-- The float value of an integer. -/
def PyFloat.ofInt (n : ℤ) : PyFloat := ⟨n, 1⟩

/-- The rational value represented (for use in statements). -/
def PyFloat.toRat (a : PyFloat) : ℚ := (a.num : ℚ) / (a.den : ℚ)

/-- Strict comparison by cross multiplication (the denominators are
positive in every constructed value). -/
def PyFloat.Lt (a b : PyFloat) : Prop := a.num * b.den < b.num * a.den

/-- Non-strict comparison by cross multiplication. -/
def PyFloat.Le (a b : PyFloat) : Prop := a.num * b.den ≤ b.num * a.den

instance (a b : PyFloat) : Decidable (PyFloat.Lt a b) := by
  unfold PyFloat.Lt
  infer_instance

instance (a b : PyFloat) : Decidable (PyFloat.Le a b) := by
  unfold PyFloat.Le
  infer_instance

/-- Addition. -/
def PyFloat.add (a b : PyFloat) : PyFloat := ⟨a.num * b.den + b.num * a.den, a.den * b.den⟩

/-- Subtraction. -/
def PyFloat.sub (a b : PyFloat) : PyFloat := ⟨a.num * b.den - b.num * a.den, a.den * b.den⟩

/-- Multiplication. -/
def PyFloat.mul (a b : PyFloat) : PyFloat := ⟨a.num * b.num, a.den * b.den⟩

/-- Division (sign moved to the numerator to keep the denominator
positive; division by zero is guarded at every call site, as in the
source). -/
def PyFloat.div (a b : PyFloat) : PyFloat :=
  let n := a.num * b.den
  let d := a.den * b.num
  if d < 0 then ⟨-n, -d⟩ else ⟨n, d⟩

/-- Python min of two floats. -/
def PyFloat.pymin (a b : PyFloat) : PyFloat := if PyFloat.Le a b then a else b

/-- Python max of two floats. -/
def PyFloat.pymax (a b : PyFloat) : PyFloat := if PyFloat.Lt a b then b else a

/-- Python int() truncation of a nonnegative float, as a natural number
(the single use site multiplies a nonnegative ratio by a size). -/
def PyFloat.floorToNat (a : PyFloat) : ℕ := (Int.fdiv a.num a.den).toNat

/-- Powers of ten for the decimal parser. -/
def pow10 : ℕ → ℤ
  | 0 => 1
  | n + 1 => 10 * pow10 n

/-- JSON values as produced by json.loads / consumed by json.dumps.
Python distinguishes int from float, and bool is a subclass of int. -/
inductive JValue where
  | jnull
  | jbool (b : Bool)
  | jint (n : ℤ)
  | jfloat (q : PyFloat)
  | jstr (s : String)
  | jarr (xs : List JValue)
  | jobj (fields : List (String × JValue))

/-- One hexadecimal digit. -/
def hexDigit (n : ℕ) : Char :=
  if n < 10 then Char.ofNat (48 + n) else Char.ofNat (87 + n % 16)

/-- JSON string escaping for one character, following json.dumps with
ensure_ascii=True (astral characters needing surrogate pairs are outside
the modelled scope; all cache keys in the claims are ASCII). -/
def jsonEscapeChar (c : Char) : List Char :=
  if c == '"' then ['\\', '"']
  else if c == '\\' then ['\\', '\\']
  else if c == '\n' then ['\\', 'n']
  else if c == '\t' then ['\\', 't']
  else if c == '\r' then ['\\', 'r']
  else if c.toNat < 32 || 127 ≤ c.toNat then
    ['\\', 'u', hexDigit (c.toNat / 4096 % 16), hexDigit (c.toNat / 256 % 16),
     hexDigit (c.toNat / 16 % 16), hexDigit (c.toNat % 16)]
  else [c]

/-- JSON serialization of a string literal. -/
def jsonDumpStr (s : String) : String :=
  ⟨'"' :: (s.data.flatMap jsonEscapeChar) ++ ['"']⟩

/-- Code-point lexicographic order on character lists, the order Python
uses to compare strings. -/
def charListLt : List Char → List Char → Bool
  | [], [] => false
  | [], _ :: _ => true
  | _ :: _, [] => false
  | a :: as, b :: bs =>
    if a.toNat < b.toNat then true
    else if b.toNat < a.toNat then false
    else charListLt as bs

/-- Python string comparison. -/
def strLtB (a b : String) : Bool := charListLt a.data b.data

/-- Insert a key-string pair into a key-sorted list (insertion step of the
stable sort performed by json.dumps sort_keys=True; key comparison is the
code-point lexicographic order, as in Python).  The pairs carry the
already-serialized field value, which the comparison never inspects, so
sorting after serializing the values coincides with the source's
serialize-after-sort. -/
def insertFieldSorted (p : String × String) :
    List (String × String) → List (String × String)
  | [] => [p]
  | q :: qs => if strLtB p.1 q.1 then p :: q :: qs else q :: insertFieldSorted p qs

/-- Sort serialized object fields by key, as json.dumps sort_keys=True. -/
def sortFields (l : List (String × String)) : List (String × String) :=
  l.foldr insertFieldSorted []

/-- Intercalate for string lists. -/
def joinWith (sep : String) : List String → String
  | [] => ""
  | [x] => x
  | x :: y :: rest => x ++ sep ++ joinWith sep (y :: rest)

/-- Scalar JSON values.  The mappings the source ever passes to
InMemoryCache._generate_key as structured cache keys (the query-cache key
and the field mappings of the specification's examples) carry scalar
field values only, so the dict cache key is modelled with scalar values;
nested values are outside the modelled scope. -/
inductive JScalar where
  | jnull
  | jbool (b : Bool)
  | jint (n : ℤ)
  | jfloat (q : PyFloat)
  | jstr (s : String)

/-- json.dumps of one scalar value.  Floats are serialized with a
deterministic (not digit-faithful) rendering: no claim compares the
textual form of a float. -/
def jsonDumpsScalar : JScalar → String
  | .jnull => "null"
  | .jbool b => if b then "true" else "false"
  | .jint n => toString n
  | .jfloat q => toString q.num ++ "/" ++ toString q.den
  | .jstr s => jsonDumpStr s

/-- json.dumps of a flat object with sort_keys=True and the default
separators. -/
def jsonDumpsObj (fields : List (String × JScalar)) : String :=
  String.singleton lbraceChar ++
    joinWith ", "
      ((sortFields (fields.map (fun p => (p.1, jsonDumpsScalar p.2)))).map
        (fun p => jsonDumpStr p.1 ++ ": " ++ p.2)) ++
    String.singleton rbraceChar

/-! ## cache_manager.py: InMemoryCache -/

/-- Cache keys accepted by InMemoryCache._generate_key.  The source also
has a catch-all branch hashing str(key) for other Python types; the claims
only use string and mapping keys. -/
inductive CacheKey where
  | str (s : String)
  | dict (fields : List (String × JScalar))

/-- InMemoryCache._generate_key: a plain string is hashed directly; a dict
is serialized with sorted keys (json.dumps(key, sort_keys=True)) and the
digest of the serialization is used.  The md5 digest itself is a function
parameter. -/
def generateKey (md5 : String → String) : CacheKey → String
  | .str s => md5 s
  | .dict d => md5 (jsonDumpsObj d)

/-- CacheEntry of cache_manager.py.  The size_bytes field is computed in
post-init from the payload and never read afterwards, so it is omitted;
post-init also overwrites last_accessed with the creation timestamp. -/
structure CacheEntry (α : Type) where
  data : α
  timestamp : PyFloat
  access_count : ℕ
  last_accessed : PyFloat

/-- CacheEntry construction as performed by InMemoryCache.set (the
post-init hook resets last_accessed to the timestamp). -/
def mkCacheEntry (data : α) (timestamp : PyFloat) : CacheEntry α :=
  { data := data, timestamp := timestamp, access_count := 0, last_accessed := timestamp }

/-- InMemoryCache state.  The OrderedDict is a key-entry list whose head is
the least recently used binding; reachable states have pairwise distinct
keys. -/
structure InMemoryCache (α : Type) where
  max_size : ℕ
  ttl_seconds : PyFloat
  cache : List (String × CacheEntry α)
  hits : ℕ
  misses : ℕ

/-- InMemoryCache.__init__. -/
def InMemoryCache.init (α : Type) (max_size : ℕ) (ttl_seconds : PyFloat) : InMemoryCache α :=
  { max_size := max_size, ttl_seconds := ttl_seconds, cache := [], hits := 0, misses := 0 }

/-- Dictionary lookup in the ordered binding list. -/
def lookupKey (k : String) (l : List (String × CacheEntry α)) : Option (CacheEntry α) :=
  (l.find? (fun p => p.1 == k)).map (fun p => p.2)

/-- Remove the binding of a key (dict del; reachable states bind a key at
most once, so filtering is the deletion of that single binding). -/
def removeKey (k : String) (l : List (String × CacheEntry α)) :
    List (String × CacheEntry α) :=
  l.filter (fun p => !(p.1 == k))

/-- InMemoryCache.get: miss on absent key; an entry older than ttl_seconds
is deleted and counted as a miss; a hit updates access bookkeeping, moves
the binding to the most-recently-used end, and returns the payload. -/
def InMemoryCache.get (md5 : String → String) (c : InMemoryCache α)
    (key : CacheKey) (current_time : PyFloat) : Option α × InMemoryCache α :=
  let cache_key := generateKey md5 key
  match lookupKey cache_key c.cache with
  | none => (none, { c with misses := c.misses + 1 })
  | some entry =>
    if PyFloat.Lt c.ttl_seconds (current_time.sub entry.timestamp) then
      (none, { c with cache := removeKey cache_key c.cache, misses := c.misses + 1 })
    else
      let entry2 : CacheEntry α :=
        { entry with access_count := entry.access_count + 1, last_accessed := current_time }
      (some entry2.data,
       { c with cache := removeKey cache_key c.cache ++ [(cache_key, entry2)],
                hits := c.hits + 1 })

/-- The eviction loop of InMemoryCache.set: while the store is over
max_size, delete the least-recently-used (first) binding. -/
def evictWhile (max_size : ℕ) : List (String × CacheEntry α) → List (String × CacheEntry α)
  | [] => []
  | p :: rest =>
    if max_size < (p :: rest).length then evictWhile max_size rest else p :: rest

/-- InMemoryCache.set: build a fresh entry, replace any existing binding,
append at the most-recently-used end, then evict until within max_size. -/
def InMemoryCache.set (md5 : String → String) (c : InMemoryCache α)
    (key : CacheKey) (value : α) (current_time : PyFloat) : InMemoryCache α :=
  let cache_key := generateKey md5 key
  let entry := mkCacheEntry value current_time
  { c with cache := evictWhile c.max_size (removeKey cache_key c.cache ++ [(cache_key, entry)]) }

/-- InMemoryCache.clear. -/
def InMemoryCache.clear (c : InMemoryCache α) : InMemoryCache α :=
  { c with cache := [], hits := 0, misses := 0 }

/-- The record returned by InMemoryCache.get_stats. -/
structure CacheStats where
  entries : ℕ
  max_size : ℕ
  hits : ℕ
  misses : ℕ
  hit_rate : PyFloat
  total_requests : ℕ

/-- InMemoryCache.get_stats. -/
def InMemoryCache.getStats (c : InMemoryCache α) : CacheStats :=
  let total_requests := c.hits + c.misses
  { entries := c.cache.length, max_size := c.max_size, hits := c.hits,
    misses := c.misses,
    hit_rate := if 0 < total_requests then
      PyFloat.div (.ofInt (c.hits : ℤ)) (.ofInt (total_requests : ℤ)) else .ofInt 0,
    total_requests := total_requests }

/-- A cache operation, for stating invariants over operation sequences. -/
inductive CacheOp (α : Type) where
  | get (key : CacheKey) (t : PyFloat)
  | set (key : CacheKey) (v : α) (t : PyFloat)
  | clear

/-- Apply one operation to the store (the returned value of get is
discarded; only the state evolution matters for the invariant). -/
def applyOp (md5 : String → String) (c : InMemoryCache α) : CacheOp α → InMemoryCache α
  | .get k t => (c.get md5 k t).2
  | .set k v t => c.set md5 k v t
  | .clear => c.clear

/-- Apply a sequence of operations front to back. -/
def applyOps (md5 : String → String) (c : InMemoryCache α) : List (CacheOp α) → InMemoryCache α
  | [] => c
  | op :: ops => applyOps md5 (applyOp md5 c op) ops

/-! ## cache_manager.py: QueryCache -/

/-- QueryCache wraps an InMemoryCache (defaults max_entries=200,
ttl_seconds=1800). -/
structure QueryCache (α : Type) where
  cache : InMemoryCache α

/-- QueryCache.__init__. -/
def QueryCache.init (α : Type) (max_entries : ℕ) (ttl_seconds : PyFloat) : QueryCache α :=
  ⟨InMemoryCache.init α max_entries ttl_seconds⟩

/-- Python (context_hash or 'default'): None and the empty string are both
falsy and replaced by the default. -/
def pyOrDefault (s : Option String) (d : String) : String :=
  match s with
  | none => d
  | some s => if s = "" then d else s

/-- The structured cache key built by QueryCache.get_query_result and
QueryCache.set_query_result: the query is lowercased and stripped. -/
def queryCacheKey (query : String) (context_hash : Option String) : CacheKey :=
  .dict [("query", .jstr (pyStrip (pyLower query))),
         ("context_hash", .jstr (pyOrDefault context_hash "default"))]

/-- QueryCache.get_query_result. -/
def QueryCache.getQueryResult (md5 : String → String) (qc : QueryCache α)
    (query : String) (context_hash : Option String) (t : PyFloat) : Option α × QueryCache α :=
  let r := qc.cache.get md5 (queryCacheKey query context_hash) t
  (r.1, ⟨r.2⟩)

/-- QueryCache.set_query_result. -/
def QueryCache.setQueryResult (md5 : String → String) (qc : QueryCache α)
    (query : String) (result : α) (context_hash : Option String) (t : PyFloat) : QueryCache α :=
  ⟨qc.cache.set md5 (queryCacheKey query context_hash) result t⟩

/-! ## embeddings_service.py and async_embeddings.py: batch embedding -/

/-- Embedding vectors (Python lists of floats, modelled as rationals). -/
abbrev Vec := List PyFloat

/-- The embedding cache used by the embedding services.  EmbeddingCache
(memory layer plus disk layer) is modelled abstractly as a state with a
get and a set; the memory layer's own LRU and TTL behaviour is embedded
separately as InMemoryCache above.  The claim about batch embedding does
not depend on the cache internals, and the theorems quantify over every
cache model. -/
structure CacheModel (σ : Type) where
  getEmbedding : σ → String → Option Vec
  setEmbedding : σ → String → Vec → σ

/-- One iteration of the inner loop of
EmbeddingsService.generate_embeddings: truncate the text to 1000
characters, consult the cache, otherwise call the provider and cache the
result; any provider exception is caught and replaced by the 768-entry
zero vector. -/
def embedOneSync (M : CacheModel σ) (provider : String → Option Vec)
    (st : σ) (text : String) : Vec × σ :=
  let text_content := pyTake 1000 text
  match M.getEmbedding st text_content with
  | some cached => (cached, st)
  | none =>
    match provider text_content with
    | some embedding => (embedding, M.setEmbedding st text_content embedding)
    | none => (List.replicate 768 (PyFloat.ofInt 0), st)

/-- The per-batch inner loop of generate_embeddings, in input order. -/
def embedListSync (M : CacheModel σ) (provider : String → Option Vec) :
    List String → σ → List Vec × σ
  | [], st => ([], st)
  | t :: ts, st =>
    let r1 := embedOneSync M provider st t
    let rest := embedListSync M provider ts r1.2
    (r1.1 :: rest.1, rest.2)

/-- EmbeddingsService.generate_embeddings: the input is processed in
batches texts[i:i+batch_size] for i in range(0, len(texts), batch_size)
and the per-batch results are concatenated in order.  Python range raises
ValueError on step 0; the claims assume batch_size at least 1. -/
def generateEmbeddings (M : CacheModel σ) (provider : String → Option Vec)
    (batch_size : ℕ) : List String → σ → List Vec × σ
  | [], st => ([], st)
  | t :: ts, st =>
    if h : batch_size = 0 then ([], st)
    else
      let rb := embedListSync M provider ((t :: ts).take batch_size) st
      let rr := generateEmbeddings M provider batch_size ((t :: ts).drop batch_size) rb.2
      (rb.1 ++ rr.1, rr.2)
termination_by l => l.length
decreasing_by
  simp only [List.length_drop, List.length_cons]
  omega

/-- AsyncEmbeddingsService.generate_single_embedding: the cache key is
task_type followed by a colon and the truncated text; a provider
exception is caught and yields None. -/
def generateSingleEmbedding (M : CacheModel σ) (provider : String → Option Vec)
    (task_type : String) (st : σ) (text : String) : Option Vec × σ :=
  let text_content := pyTake 1000 text
  let cache_key := task_type ++ ":" ++ text_content
  match M.getEmbedding st cache_key with
  | some cached => (some cached, st)
  | none =>
    match provider text_content with
    | some embedding => (some embedding, M.setEmbedding st cache_key embedding)
    | none => (none, st)

/-- One gathered batch of AsyncEmbeddingsService.generate_batch_embeddings
together with the result handling: a per-item None (or exception) becomes
the 768-entry zero vector.  asyncio.gather collects results positionally,
so the concurrent batch is modelled as an in-order traversal; the shared
cache state is threaded through one interleaving. -/
def gatherBatchAsync (M : CacheModel σ) (provider : String → Option Vec)
    (task_type : String) : List String → σ → List Vec × σ
  | [], st => ([], st)
  | t :: ts, st =>
    let r1 := generateSingleEmbedding M provider task_type st t
    let rest := gatherBatchAsync M provider task_type ts r1.2
    ((match r1.1 with
      | some embedding => embedding
      | none => List.replicate 768 (PyFloat.ofInt 0)) :: rest.1, rest.2)

/-- AsyncEmbeddingsService.generate_batch_embeddings: tasks are created in
input order, awaited in batches of batch_size, and the handled results are
appended in order. -/
def generateBatchEmbeddings (M : CacheModel σ) (provider : String → Option Vec)
    (task_type : String) (batch_size : ℕ) : List String → σ → List Vec × σ
  | [], st => ([], st)
  | t :: ts, st =>
    if h : batch_size = 0 then ([], st)
    else
      let rb := gatherBatchAsync M provider task_type ((t :: ts).take batch_size) st
      let rr := generateBatchEmbeddings M provider task_type batch_size
        ((t :: ts).drop batch_size) rb.2
      (rb.1 ++ rr.1, rr.2)
termination_by l => l.length
decreasing_by
  simp only [List.length_drop, List.length_cons]
  omega

/-! ## answer_attribution.py: AnswerAttributionMapper -/

/-- Paragraph from paragraph_extractor.py.  The loosely-typed metadata
mapping is omitted: the attribution mapper never reads it. -/
structure Paragraph where
  title : String
  content : String
  paragraph_index : ℕ
  source_chunk_index : ℕ
  document_name : String

/-- Attribution dataclass.  attribution_type holds whatever JSON value the
model response carried (the source performs no type check on it); the
code's own constructions always store a string. -/
structure Attribution where
  answer_segment : String
  supporting_paragraphs : List ℤ
  confidence : PyFloat
  attribution_type : JValue

/-- AttributedAnswer dataclass. -/
structure AttributedAnswer where
  answer : String
  attributions : List Attribution
  paragraphs : List Paragraph
  overall_confidence : PyFloat

/-- Attempt to match the section regex (two stars, one or more non-star
characters, two stars) at the start of the text: returns the captured
header and the rest after the match.  The greedy non-star run must be
followed immediately by two stars, exactly as for the Python pattern. -/
def matchStarsAt (l : List Char) : Option (List Char × List Char) :=
  match l with
  | c1 :: c2 :: rest =>
    if c1 == '*' && c2 == '*' then
      let run := rest.takeWhile (fun c => !(c == '*'))
      let rest2 := rest.dropWhile (fun c => !(c == '*'))
      if run ≠ [] ∧ rest2.take 2 = ['*', '*'] then some (run, rest2.drop 2)
      else none
    else none
  | _ => none

/-- A successful match at a position consumes at least one character. -/
theorem matchStarsAt_length (l h r : List Char) :
    matchStarsAt l = some (h, r) → r.length < l.length := by
  match l with
  | [] => intro hm; exact absurd hm (by simp [matchStarsAt])
  | [c] => intro hm; exact absurd hm (by simp [matchStarsAt])
  | c1 :: c2 :: rest =>
    intro hm
    simp only [matchStarsAt] at hm
    by_cases hc : (c1 == '*' && c2 == '*') = true
    · rw [if_pos hc] at hm
      by_cases hg : rest.takeWhile (fun c => !(c == '*')) ≠ [] ∧
          (rest.dropWhile (fun c => !(c == '*'))).take 2 = ['*', '*']
      · rw [if_pos hg] at hm
        simp only [Option.some.injEq, Prod.mk.injEq] at hm
        have hr : r = (rest.dropWhile (fun c => !(c == '*'))).drop 2 := hm.2.symm
        have hd : (rest.dropWhile (fun c => !(c == '*'))).length ≤ rest.length :=
          lengthDropWhileLe (fun c => !(c == '*')) rest
        subst hr
        simp only [List.length_drop, List.length_cons]
        omega
      · rw [if_neg hg] at hm; exact absurd hm (by simp)
    · rw [if_neg hc] at hm; exact absurd hm (by simp)

/-- Leftmost match of the section regex: the text before the match, the
captured header, and the rest after the match.  Scanning advances one
position at a time, as the regex engine does. -/
def findStarSection : List Char → Option (List Char × List Char × List Char)
  | [] => none
  | c :: cs =>
    match matchStarsAt (c :: cs) with
    | some (h, r) => some ([], h, r)
    | none =>
      match findStarSection cs with
      | some (pre, h, r) => some (c :: pre, h, r)
      | none => none

/-- A successful section match leaves a strictly shorter remainder. -/
theorem findStarSection_length :
    ∀ l pre h r, findStarSection l = some (pre, h, r) → r.length < l.length := by
  intro l
  induction l with
  | nil => intro pre h r heq; exact absurd heq (by simp [findStarSection])
  | cons c cs ih =>
    intro pre h r heq
    cases hm : matchStarsAt (c :: cs) with
    | some v =>
      obtain ⟨h2, r2⟩ := v
      simp only [findStarSection, hm] at heq
      simp only [Option.some.injEq, Prod.mk.injEq] at heq
      have hr : r2 = r := heq.2.2
      rw [← hr]
      exact matchStarsAt_length (c :: cs) h2 r2 hm
    | none =>
      simp only [findStarSection, hm] at heq
      cases hfs : findStarSection cs with
      | none => rw [hfs] at heq; exact absurd heq (by simp)
      | some v =>
        obtain ⟨pre2, h2, r2⟩ := v
        rw [hfs] at heq
        simp only [Option.some.injEq, Prod.mk.injEq] at heq
        have hr : r2 = r := heq.2.2
        rw [← hr]
        have := ih pre2 h2 r2 hfs
        simp only [List.length_cons]
        omega

/-- re.split of the section pattern: the pieces of text between matches,
interleaved with the captured headers.  Structural fuel: by the length
theorem above every match strictly shrinks the remainder, so one more
unit of fuel than the text length always suffices. -/
def reSplitStarsFuel : ℕ → List Char → List (List Char)
  | 0, l => [l]
  | fuel + 1, l =>
    match findStarSection l with
    | none => [l]
    | some (_pre, h, r) => _pre :: h :: reSplitStarsFuel fuel r

/-- re.split of the section pattern over the whole text. -/
def reSplitStars (l : List Char) : List (List Char) :=
  reSplitStarsFuel (l.length + 1) l

/-- The accumulation loop of _split_answer_into_segments over the pieces
returned by the section split: even pieces extend the current segment,
odd pieces (headers) flush the stripped current segment and start a new
one opening with the bold-marked header. -/
def buildSectionSegments : List (List Char) → ℕ → List Char → List (List Char)
  | [], _, current =>
    if pyStripL current ≠ [] then [pyStripL current] else []
  | s :: rest, i, current =>
    if i % 2 = 0 then buildSectionSegments rest (i + 1) (current ++ s)
    else
      (if pyStripL current ≠ [] then [pyStripL current] else []) ++
        buildSectionSegments rest (i + 1) ('*' :: '*' :: s ++ ['*', '*'])

/-- Python split on the two-character separator of a blank line (a pair of
newline characters), leftmost and non-overlapping. -/
def splitOnBlank : List Char → List (List Char)
  | '\n' :: '\n' :: rest => [] :: splitOnBlank rest
  | c :: rest =>
    match splitOnBlank rest with
    | s :: ss => (c :: s) :: ss
    | [] => [[c]]
  | [] => [[]]

/-- The sentence-terminating punctuation class of the answer splitter. -/
def isSentencePunct (c : Char) : Bool := c == '.' || c == '!' || c == '?'

/-- Consuming a dropped-while tail of the rest is shorter than the whole. -/
theorem dropWhileTailLtCons (p : α → Bool) (c : α) (rest : List α) :
    (rest.dropWhile p).length < (c :: rest).length := by
  have := lengthDropWhileLe p rest
  simp only [List.length_cons]
  omega

/-- re.split on one-or-more sentence punctuation characters, with
structural fuel (every step consumes at least one character, so one more
unit of fuel than the text length always suffices). -/
def splitOnPunctRunFuel : ℕ → List Char → List (List Char)
  | 0, l => [l]
  | _, [] => [[]]
  | fuel + 1, c :: rest =>
    if isSentencePunct c then
      [] :: splitOnPunctRunFuel fuel (rest.dropWhile isSentencePunct)
    else
      match splitOnPunctRunFuel fuel rest with
      | s :: ss => (c :: s) :: ss
      | [] => [[c]]

/-- re.split on one-or-more sentence punctuation characters. -/
def splitOnPunctRun (l : List Char) : List (List Char) :=
  splitOnPunctRunFuel (l.length + 1) l

/-- AnswerAttributionMapper._split_answer_into_segments: prefer
bold-header sections when the section split found more than three pieces;
otherwise split at blank lines; keep segments longer than 50 characters;
if none remain, fall back to sentences longer than 30 characters after
stripping; keep at most 10 segments. -/
def splitAnswerIntoSegments (answer : String) : List String :=
  let sections := reSplitStars answer.data
  let segments :=
    if 3 < sections.length then
      buildSectionSegments sections 0 []
    else
      ((splitOnBlank answer.data).map pyStripL).filter (fun p => p ≠ [])
  let segments2 := segments.filter (fun s => 50 < s.length)
  let segments3 :=
    if segments2 = [] then
      ((splitOnPunctRun answer.data).map pyStripL).filter (fun s => 30 < s.length)
    else segments2
  (segments3.take 10).map (fun l => (⟨l⟩ : String))

/-- The JSON extraction regex of _parse_attribution_response: an open
brace, then anything (greedy, DOTALL), then a close brace.  The leftmost
greedy match runs from the first open brace to the last close brace when
the latter comes later; otherwise there is no match. -/
def extractJson (l : List Char) : Option (List Char) :=
  match l.findIdx? (fun c => c == lbraceChar),
        l.reverse.findIdx? (fun c => c == rbraceChar) with
  | some i, some jr =>
    let j := l.length - 1 - jr
    if i < j then some ((l.drop i).take (j - i + 1)) else none
  | _, _ => none

/-- Python dict lookup on the field list produced by json.loads (duplicate
keys: the last occurrence wins, as in Python's JSON decoder). -/
def dictGet (fields : List (String × JValue)) (k : String) : Option JValue :=
  (fields.reverse.find? (fun p => p.1 == k)).map (fun p => p.2)

/-- A minimal decimal parser for Python float(str): optional sign, digits,
optional fractional digits.  Exponents and special values are outside the
modelled scope (no claim exercises a string confidence). -/
def parseDecimalDigits (l : List Char) : Option ℕ :=
  if l = [] then none
  else if l.all Char.isDigit then
    some (l.foldl (fun acc c => acc * 10 + (c.toNat - 48)) 0)
  else none

/-- Python float(str) on a stripped literal. -/
def pyFloatOfString (s : String) : Option PyFloat :=
  let l := pyStripL s.data
  let core := match l with
    | '-' :: rest => some (true, rest)
    | '+' :: rest => some (false, rest)
    | rest => some (false, rest)
  match core with
  | some (neg, body) =>
    match body.splitOn '.' with
    | [intPart] =>
      (parseDecimalDigits intPart).map
        (fun n => PyFloat.ofInt (if neg then -(n : ℤ) else (n : ℤ)))
    | [intPart, fracPart] =>
      match parseDecimalDigits intPart, parseDecimalDigits fracPart with
      | some n, some f =>
        let p := pow10 fracPart.length
        let numer : ℤ := (n : ℤ) * p + (f : ℤ)
        some ⟨if neg then -numer else numer, p⟩
      | _, _ => none
    | _ => none
  | none => none

/-- Python float() applied to a JSON value.  Booleans are numeric (bool is
a subclass of int); None, lists and objects raise, which the enclosing
per-segment handler turns into a dropped attribution. -/
def pyFloat : JValue → Option PyFloat
  | .jint n => some (.ofInt n)
  | .jfloat q => some q
  | .jbool b => some (.ofInt (if b then 1 else 0))
  | .jstr s => pyFloatOfString s
  | _ => none

/-- Python isinstance(idx, int), returning the integer value: ints and
bools qualify (bool is a subclass of int). -/
def pyAsInt : JValue → Option ℤ
  | .jint n => some n
  | .jbool b => some (if b then 1 else 0)
  | _ => none

/-- AnswerAttributionMapper._parse_attribution_response.  JSON decoding
itself (json.loads on the extracted object text) is a function parameter
returning the decoded field list or None for a decode error; everything
after decoding follows the source: read the three fields with their
defaults, convert the confidence with float(), keep only integer indices
within the paragraph range, and produce no Attribution when no valid
index remains.  A non-list value of the indices field yields no valid
indices (a string iterates over its characters, none an int; other
non-iterables raise and are caught by the enclosing per-segment
handler). -/
def parseAttributionResponse (jsonLoads : String → Option (List (String × JValue)))
    (response_text : String) (segment : String) (total_paragraphs : ℕ) :
    Option Attribution :=
  match extractJson response_text.data with
  | none => none
  | some jchars =>
    match jsonLoads (⟨jchars⟩ : String) with
    | none => none
    | some attribution_data =>
      let supporting_indices :=
        match (dictGet attribution_data "supporting_paragraph_indices").getD (.jarr []) with
        | .jarr xs => xs
        | _ => []
      match pyFloat ((dictGet attribution_data "confidence").getD (.jfloat (.ofInt 0))) with
      | none => none
      | some confidence =>
        let attribution_type := (dictGet attribution_data "attribution_type").getD (.jstr "direct")
        let valid_indices := (supporting_indices.filterMap pyAsInt).filter
          (fun idx => decide (0 ≤ idx) && decide (idx < (total_paragraphs : ℤ)))
        if valid_indices = [] then none
        else some { answer_segment := segment, supporting_paragraphs := valid_indices,
                    confidence := confidence, attribution_type := attribution_type }

/-- The numbered paragraph context of _create_attribution_prompt: index,
title and content truncated to 500 characters, joined with separator
lines. -/
def paragraphContextText (paragraphs : List Paragraph) : String :=
  joinWith "\n"
    ((List.range paragraphs.length).map (fun i =>
      let p := paragraphs.getD i ⟨"", "", 0, 0, ""⟩
      "Paragraph " ++ toString i ++ ": " ++ p.title ++ "\n" ++
        pyTake 500 p.content ++ "\n---"))

/-- AnswerAttributionMapper._create_attribution_prompt (the braces of the
embedded JSON template are written via their code points). -/
def createAttributionPrompt (question segment : String)
    (paragraphs : List Paragraph) : String :=
  "You are an expert medical citation system. Your task is to identify which paragraphs from the provided medical documents support a specific part of an answer.\n\n" ++
  "QUESTION: " ++ question ++ "\n\n" ++
  "ANSWER SEGMENT TO ANALYZE:\n" ++ segment ++ "\n\n" ++
  "AVAILABLE PARAGRAPHS:\n" ++ paragraphContextText paragraphs ++ "\n\n" ++
  "TASK: Determine which paragraphs (by index number) directly support the claims made in the answer segment above.\n\n" ++
  "RESPOND WITH A JSON OBJECT ONLY:\n" ++ String.singleton lbraceChar ++ "\n" ++
  "    \"supporting_paragraph_indices\": [list of paragraph indices that support this segment],\n" ++
  "    \"confidence\": number between 0.0 and 1.0,\n" ++
  "    \"attribution_type\": \"direct\" or \"inferred\" or \"synthesized\",\n" ++
  "    \"reasoning\": \"brief explanation of why these paragraphs support the segment\"\n" ++
  String.singleton rbraceChar ++ "\n\n" ++
  "GUIDELINES:\n- \"direct\": Information is explicitly stated in the paragraphs\n- \"inferred\": Information can be reasonably inferred from the paragraphs  \n- \"synthesized\": Information combines ideas from multiple paragraphs\n- Only include paragraph indices that actually support the segment\n- Be precise - don't include paragraphs that are only tangentially related\n- Confidence should reflect how well the paragraphs support the segment"

/-- AnswerAttributionMapper._map_segment_to_paragraphs.  The generation
model is a function parameter returning the response text, or None when
the call raises or the response object is falsy; an empty response text
is falsy as well.  Every exception inside this method, including those
escaping the parse, is caught here and yields None for the segment. -/
def mapSegmentToParagraphs (jsonLoads : String → Option (List (String × JValue)))
    (model : String → Option String) (question segment : String)
    (paragraphs : List Paragraph) : Option Attribution :=
  let prompt := createAttributionPrompt question segment paragraphs
  match model prompt with
  | none => none
  | some text =>
    if text = "" then none
    else parseAttributionResponse jsonLoads text segment paragraphs.length

/-- AnswerAttributionMapper._calculate_overall_confidence: length-weighted
mean of the per-attribution confidences, zero for an empty list or zero
total weight. -/
def calculateOverallConfidence (attributions : List Attribution) : PyFloat :=
  if attributions.isEmpty then .ofInt 0
  else
    let total_weight : PyFloat :=
      (attributions.map (fun a => PyFloat.ofInt (a.answer_segment.length : ℤ))).foldl
        PyFloat.add (.ofInt 0)
    let weighted_confidence : PyFloat :=
      (attributions.map
        (fun a => a.confidence.mul (.ofInt (a.answer_segment.length : ℤ)))).foldl
        PyFloat.add (.ofInt 0)
    if PyFloat.Lt (.ofInt 0) total_weight then weighted_confidence.div total_weight
    else .ofInt 0

/-- AnswerAttributionMapper._create_fallback_attribution: a single
Attribution covering the whole answer, referencing every paragraph index,
confidence one half, type synthesized. -/
def createFallbackAttribution (answer : String) (paragraphs : List Paragraph) :
    AttributedAnswer :=
  let attribution : Attribution :=
    { answer_segment := answer,
      supporting_paragraphs := (List.range paragraphs.length).map (fun i => Int.ofNat i),
      confidence := ⟨1, 2⟩,
      attribution_type := .jstr "synthesized" }
  { answer := answer, attributions := [attribution], paragraphs := paragraphs,
    overall_confidence := ⟨1, 2⟩ }

/-- AnswerAttributionMapper.create_attributed_answer.  The segments are
mapped one by one; segments whose mapping returns None contribute
nothing.  The source wraps this body in a broad exception handler that
returns _create_fallback_attribution, but every model-call or parse
failure is already caught inside _map_segment_to_paragraphs, so in this
pure embedding the handler has no reachable trigger: the fallback arises
only from exceptions outside the per-segment path. -/
def createAttributedAnswer (jsonLoads : String → Option (List (String × JValue)))
    (model : String → Option String) (question answer : String)
    (paragraphs : List Paragraph) : AttributedAnswer :=
  let answer_segments := splitAnswerIntoSegments answer
  let attributions := answer_segments.filterMap
    (fun segment => mapSegmentToParagraphs jsonLoads model question segment paragraphs)
  { answer := answer, attributions := attributions, paragraphs := paragraphs,
    overall_confidence := calculateOverallConfidence attributions }

/-! ## advanced_chunking.py: MedicalConceptDetector -/

/-- Word characters of the regex class backslash-w (ASCII scope). -/
def isWordChar (c : Char) : Bool := c.isAlphanum || c == '_'

/-- Case-insensitive character comparison (IGNORECASE, ASCII scope). -/
def charEqCI (a b : Char) : Bool := a.toLower == b.toLower

/-- Match one pattern word case-insensitively at the start of the input,
returning the consumed text (original case) and the remaining input. -/
def matchWordCI : List Char → List Char → Option (List Char × List Char)
  | [], l => some ([], l)
  | _ :: _, [] => none
  | p :: ps, c :: cs =>
    if charEqCI c p then
      match matchWordCI ps cs with
      | some (m, r) => some (c :: m, r)
      | none => none
    else none

/-- Match a sequence of pattern words separated by one-or-more whitespace
(the backslash-s-plus separators inside the multiword patterns), at the
start of the input. -/
def matchWordSeq : List (List Char) → List Char → Option (List Char × List Char)
  | [], l => some ([], l)
  | w :: ws, l =>
    match matchWordCI w l with
    | none => none
    | some (m1, r1) =>
      match ws with
      | [] => some (m1, r1)
      | _ :: _ =>
        let wsRun := r1.takeWhile isPyWsChar
        if wsRun = [] then none
        else
          match matchWordSeq ws (r1.dropWhile isPyWsChar) with
          | none => none
          | some (m2, r2) => some (m1 ++ wsRun ++ m2, r2)

/-- Try the alternatives of one compiled pattern in order at the current
position; a candidate match must also end at a word boundary (the next
character, if any, is not a word character), otherwise the next
alternative is tried, as regex alternation backtracking does.  The
leading word boundary is checked by the caller. -/
def tryAlternatives (alts : List (List (List Char))) (l : List Char) :
    Option (List Char × List Char) :=
  match alts with
  | [] => none
  | alt :: rest =>
    match matchWordSeq alt l with
    | some (m, r) =>
      if (r.head?.map isWordChar).getD false then tryAlternatives rest l
      else some (m, r)
    | none => tryAlternatives rest l

/-- The findall scan of one compiled pattern: walk the text left to right;
at a position satisfying the leading word boundary try the alternatives;
on a match collect the matched text and continue after it (every
alternative ends in a word character, so the position after a match is
not at a word boundary); otherwise advance one character.  The fuel is
one more than the text length, which suffices because the patterns have
no empty alternative. -/
def findallScan (alts : List (List (List Char))) : ℕ → List Char → Bool → List (List Char)
  | 0, _, _ => []
  | _ + 1, [], _ => []
  | fuel + 1, c :: rest, atBoundary =>
    if atBoundary then
      match tryAlternatives alts (c :: rest) with
      | some (m, r) => m :: findallScan alts fuel r false
      | none => findallScan alts fuel rest (!(isWordChar c))
    else findallScan alts fuel rest (!(isWordChar c))

/-- re.findall of one compiled word-alternation pattern over the text. -/
def findallPattern (alt : List (List String)) (text : List Char) : List (List Char) :=
  findallScan (alt.map (fun ws => ws.map String.data)) (text.length + 1) text true

/-- The anatomy patterns of MedicalConceptDetector (each entry is one
compiled regex; each alternative is a word sequence joined by
whitespace-runs). -/
def anatomyPatterns : List (List (List String)) :=
  [[["cortex"], ["cerebral"], ["cerebellum"], ["brainstem"], ["hippocampus"], ["amygdala"]],
   [["neuron"], ["synapse"], ["axon"], ["dendrite"], ["myelin"], ["glia"]],
   [["heart"], ["lung"], ["kidney"], ["liver"], ["spleen"], ["stomach"], ["intestine"]],
   [["artery"], ["vein"], ["capillary"], ["vessel"], ["circulation"]],
   [["muscle"], ["bone"], ["joint"], ["cartilage"], ["tendon"], ["ligament"]]]

/-- The physiology patterns of MedicalConceptDetector. -/
def physiologyPatterns : List (List (List String)) :=
  [[["homeostasis"], ["metabolism"], ["respiration"], ["circulation"], ["digestion"]],
   [["action", "potential"], ["depolarization"], ["repolarization"]],
   [["hormone"], ["enzyme"], ["receptor"], ["channel"], ["transporter"]],
   [["blood", "pressure"], ["heart", "rate"], ["stroke", "volume"]],
   [["filtration"], ["reabsorption"], ["secretion"], ["excretion"]]]

/-- The pathology patterns of MedicalConceptDetector. -/
def pathologyPatterns : List (List (List String)) :=
  [[["disease"], ["disorder"], ["syndrome"], ["condition"], ["pathology"]],
   [["inflammation"], ["infection"], ["tumor"], ["cancer"], ["neoplasm"]],
   [["hypertension"], ["diabetes"], ["stroke"], ["myocardial", "infarction"]],
   [["arrhythmia"], ["bradycardia"], ["tachycardia"], ["fibrillation"]]]

/-- The pharmacology patterns of MedicalConceptDetector. -/
def pharmacologyPatterns : List (List (List String)) :=
  [[["drug"], ["medication"], ["pharmaceutical"], ["therapeutic"]],
   [["agonist"], ["antagonist"], ["inhibitor"], ["activator"]],
   [["absorption"], ["distribution"], ["metabolism"], ["excretion"]],
   [["dose"], ["dosage"], ["concentration"], ["bioavailability"]]]

/-- Add an element to a duplicate-free accumulation (Python set.update;
the set's iteration order is unspecified, modelled as first-insertion
order; every downstream use is order-insensitive). -/
def dedupInsert (acc : List (List Char)) (x : List Char) : List (List Char) :=
  if acc.contains x then acc else acc ++ [x]

/-- The per-category match set of MedicalConceptDetector.detect_concepts. -/
def detectCategory (patterns : List (List (List String))) (text : List Char) :
    List (List Char) :=
  patterns.foldl (fun acc pat => (findallPattern pat text).foldl dedupInsert acc) []

/-- MedicalConceptDetector.detect_concepts: category name to matched-term
set, in the fixed category order of the source dictionary. -/
def detectConcepts (text : List Char) : List (String × List (List Char)) :=
  [("anatomy", detectCategory anatomyPatterns text),
   ("physiology", detectCategory physiologyPatterns text),
   ("pathology", detectCategory pathologyPatterns text),
   ("pharmacology", detectCategory pharmacologyPatterns text)]

/-- Python str.split() with no separator: whitespace-run splitting with no
empty pieces, with structural fuel (each step consumes at least one
character). -/
def pySplitWsFuel : ℕ → List Char → List (List Char)
  | 0, _ => []
  | _, [] => []
  | fuel + 1, c :: rest =>
    if isPyWsChar c then pySplitWsFuel fuel rest
    else
      (c :: rest.takeWhile (fun d => !(isPyWsChar d))) ::
        pySplitWsFuel fuel (rest.dropWhile (fun d => !(isPyWsChar d)))

/-- Python str.split() with no separator. -/
def pySplitWs (l : List Char) : List (List Char) :=
  pySplitWsFuel (l.length + 1) l

/-- MedicalConceptDetector.calculate_concept_density: matched-term count
normalized to terms per 100 words, capped at 1. -/
def calculateConceptDensity (text : List Char) : PyFloat :=
  if text = [] then .ofInt 0
  else
    let total_concepts := ((detectConcepts text).map (fun p => p.2.length)).sum
    let words := (pySplitWs text).length
    if words = 0 then .ofInt 0
    else
      PyFloat.pymin
        ((PyFloat.ofInt (total_concepts : ℤ)).div
          ((PyFloat.ofInt (words : ℤ)).div (.ofInt 100)))
        (.ofInt 1)

/-- Union of the per-category concept sets, duplicate-free. -/
def unionConcepts (detected : List (String × List (List Char))) : List (List Char) :=
  detected.foldl (fun acc p => p.2.foldl dedupInsert acc) []

/-- MedicalConceptDetector.is_medical_boundary: no signal when both sides
have no concepts; otherwise a boundary when the Jaccard overlap of the
two concept sets is below one half. -/
def isMedicalBoundary (text_before text_after : List Char) : Bool :=
  let all_before := unionConcepts (detectConcepts text_before)
  let all_after := unionConcepts (detectConcepts text_after)
  if all_before = [] ∧ all_after = [] then false
  else
    let overlapN := (all_before.filter (fun x => all_after.contains x)).length
    let totalN := (all_before ++ all_after.filter (fun x => !(all_before.contains x))).length
    if totalN = 0 then false
    else decide (PyFloat.Lt ((PyFloat.ofInt (overlapN : ℤ)).div (.ofInt (totalN : ℤ))) ⟨1, 2⟩)

/-! ## advanced_chunking.py: SemanticChunker -/

/-- The sentence-terminal punctuation of the chunker's sentence split. -/
def isTerminalPunct (c : Char) : Bool := c == '.' || c == '!' || c == '?'

/-- The sentence split regex (whitespace runs preceded by terminal
punctuation, lookbehind not consumed): walk the text tracking the
previous character; a whitespace character directly after terminal
punctuation closes the sentence and the whole whitespace run is the
separator. -/
def splitSentencesFuel : ℕ → List Char → Option Char → List Char → List (List Char)
  | 0, _, _, acc => [acc.reverse]
  | _, [], _, acc => [acc.reverse]
  | fuel + 1, c :: rest, prev, acc =>
    if isPyWsChar c && (prev.map isTerminalPunct).getD false then
      acc.reverse :: splitSentencesFuel fuel (rest.dropWhile isPyWsChar) none []
    else splitSentencesFuel fuel rest (some c) (c :: acc)

/-- re.split of the sentence pattern over the whole text (each fuel step
consumes at least one character, so the initial fuel suffices). -/
def splitSentences (l : List Char) : List (List Char) :=
  splitSentencesFuel (l.length + 1) l none []

/-- Index of the first blank line (a pair of newline characters) of a
sentence, as str.find returns it when the test for containment holds. -/
def findBlankIdx : List Char → Option ℕ
  | '\n' :: '\n' :: _ => some 0
  | _ :: rest => (findBlankIdx rest).map (fun i => i + 1)
  | [] => none

/-- Duplicate-free insertion for the boundary set. -/
def dedupInsertNat (acc : List ℕ) (x : ℕ) : List ℕ :=
  if acc.contains x then acc else acc ++ [x]

/-- Ascending insertion for the boundary sort. -/
def insertNatSorted (x : ℕ) : List ℕ → List ℕ
  | [] => [x]
  | y :: ys => if x ≤ y then x :: y :: ys else y :: insertNatSorted x ys

/-- sorted(...) on the boundary set. -/
def sortNats (l : List ℕ) : List ℕ := l.foldr insertNatSorted []

/-- The loop body of SemanticChunker.find_semantic_boundaries: each
sentence containing a blank line contributes the blank line's absolute
position; each sentence after the first contributes the running position
when the concept detector flags a medical boundary against the previous
sentence; the running position advances by the sentence length plus one. -/
def semanticBoundariesAux : List (List Char) → Option (List Char) → ℕ → List ℕ
  | [], _, _ => []
  | sentence :: rest, prevSentence, current_pos =>
    (match findBlankIdx sentence with
     | some k => [current_pos + k]
     | none => []) ++
    (match prevSentence with
     | some prev => if isMedicalBoundary prev sentence then [current_pos] else []
     | none => []) ++
    semanticBoundariesAux rest (some sentence) (current_pos + sentence.length + 1)

/-- SemanticChunker.find_semantic_boundaries: collect the candidate
positions over the sentence split, then take the sorted duplicate-free
list. -/
def findSemanticBoundaries (text : List Char) : List ℕ :=
  sortNats ((semanticBoundariesAux (splitSentences text) none 0).foldl dedupInsertNat [])

/-- SemanticChunker configuration as built by __init__: the stored
overlap_ratio is capped at one half, but overlap_size is computed from
the uncapped constructor argument (int() truncation; the ratio is
nonnegative in every claim). -/
structure SemanticChunker where
  chunk_size : ℕ
  overlap_ratio : PyFloat
  overlap_size : ℕ

/-- SemanticChunker.__init__. -/
def SemanticChunker.init (chunk_size : ℕ) (overlap_ratio : PyFloat) : SemanticChunker :=
  { chunk_size := chunk_size,
    overlap_ratio := PyFloat.pymin overlap_ratio ⟨1, 2⟩,
    overlap_size := ((PyFloat.ofInt (chunk_size : ℤ)).mul overlap_ratio).floorToNat }

/-- The optional metadata mapping passed to create_overlapping_chunks,
restricted to the fields the chunker reads. -/
structure ChunkMeta where
  title : String
  page_id : ℤ
  section_hierarchy : List String

/-- The chunk dictionary built by create_overlapping_chunks (the source
key named type is rendered ctype).  The extra field holds the metadata
fields merged in when a metadata mapping was provided. -/
structure ChunkDict where
  text : List Char
  ctype : String
  size : ℕ
  start_idx : ℕ
  end_idx : ℕ
  medical_concepts : List (List Char)
  concept_density : PyFloat
  overlap_previous : Bool
  overlap_next : Bool
  extra : Option ChunkMeta

/-- The best-boundary search of the loop body: the last boundary of the
sorted list lying in (chunk_start, chunk_end], with the scan stopping at
the first boundary beyond chunk_end. -/
def findBestBoundary (chunk_start chunk_end : ℕ) : List ℕ → Option ℕ
  | [] => none
  | b :: rest =>
    if chunk_start < b ∧ b ≤ chunk_end then
      match findBestBoundary chunk_start chunk_end rest with
      | some b2 => some b2
      | none => some b
    else if chunk_end < b then none
    else findBestBoundary chunk_start chunk_end rest

/-- Python str.rfind of a period-space pair: the last match position, or
minus one. -/
def rfindDotSpaceAux : List Char → ℕ → ℤ → ℤ
  | '.' :: ' ' :: rest, i, _ => rfindDotSpaceAux (' ' :: rest) (i + 1) (i : ℤ)
  | _ :: rest, i, acc => rfindDotSpaceAux rest (i + 1) acc
  | [], _, acc => acc

/-- Python chunk_text.rfind of a period followed by a space. -/
def rfindDotSpace (l : List Char) : ℤ := rfindDotSpaceAux l 0 (-1)

/-- The advance position computed after closing a chunk: the chunk end
minus the overlap, but at least one past the chunk start (Python max of
possibly negative ints; the natural-number truncated difference combined
with the max yields the same value). -/
def nextStartOf (cfg : SemanticChunker) (chunk_start chunk_end : ℕ) : ℕ :=
  max (chunk_end - cfg.overlap_size) (chunk_start + 1)

/-- One iteration of the while loop of
SemanticChunker.create_overlapping_chunks, at boundary index i: the pair
holds the chunk appended by this iteration (if any) and the boundary
index for the next iteration, or none when the loop breaks. -/
def chunkStep (cfg : SemanticChunker) (text : List Char) (all_boundaries : List ℕ)
    (metadata : Option ChunkMeta) (i : ℕ) : Option ChunkDict × Option ℕ :=
  let text_length := text.length
  let chunk_start := all_boundaries.getD i 0
  let chunk_end0 := chunk_start + cfg.chunk_size
  let chunk_end1 :=
    match findBestBoundary chunk_start chunk_end0 all_boundaries with
    | some best_boundary => best_boundary
    | none =>
      let chunk_text0 := (text.drop chunk_start).take (chunk_end0 - chunk_start)
      let last_sentence := rfindDotSpace chunk_text0
      if PyFloat.Lt ((PyFloat.ofInt (cfg.chunk_size : ℤ)).mul ⟨7, 10⟩) (.ofInt last_sentence) then
        chunk_start + last_sentence.toNat + 2
      else chunk_end0
  let chunk_end := min chunk_end1 text_length
  if chunk_end ≤ chunk_start then (none, none)
  else
    let chunk_text := (text.drop chunk_start).take (chunk_end - chunk_start)
    let concepts := detectConcepts chunk_text
    let all_concepts := concepts.foldl (fun acc p => acc ++ p.2) []
    let chunk : ChunkDict :=
      { text := chunk_text, ctype := "semantic", size := chunk_text.length,
        start_idx := chunk_start, end_idx := chunk_end,
        medical_concepts := all_concepts,
        concept_density := calculateConceptDensity chunk_text,
        overlap_previous := decide (0 < chunk_start) &&
          decide (chunk_start < all_boundaries.getD i 0 + cfg.overlap_size),
        overlap_next := decide (chunk_end < text_length),
        extra := metadata }
    if text_length ≤ chunk_end then (some chunk, none)
    else
      let next_start := nextStartOf cfg chunk_start chunk_end
      match all_boundaries.findIdx? (fun b => decide (next_start < b)) with
      | none => (some chunk, none)
      | some j => (some chunk, some (if 0 < j then j - 1 else 0))

/-- The while loop of create_overlapping_chunks, with explicit fuel: none
means the loop has not terminated within the given number of iterations
(the source loop is unbounded). -/
def chunkLoop (cfg : SemanticChunker) (text : List Char) (all_boundaries : List ℕ)
    (metadata : Option ChunkMeta) : ℕ → ℕ → List ChunkDict → Option (List ChunkDict)
  | 0, _, _ => none
  | fuel + 1, i, chunks =>
    if i + 1 < all_boundaries.length then
      match chunkStep cfg text all_boundaries metadata i with
      | (emitted, some i2) =>
        chunkLoop cfg text all_boundaries metadata fuel i2 (chunks ++ emitted.toList)
      | (emitted, none) => some (chunks ++ emitted.toList)
    else some chunks

/-- SemanticChunker.create_overlapping_chunks: add the start and end
positions to the boundary list, deduplicate and sort, then run the loop
from index zero. -/
def createOverlappingChunks (cfg : SemanticChunker) (fuel : ℕ) (text : List Char)
    (boundaries : List ℕ) (metadata : Option ChunkMeta) : Option (List ChunkDict) :=
  let all_boundaries := sortNats ((([0] ++ boundaries ++ [text.length]).foldl dedupInsertNat []))
  chunkLoop cfg text all_boundaries metadata fuel 0 []

/-- SemanticChunker.chunk_text: texts shorter than 50 characters produce
no chunks; otherwise chunk along the semantic boundaries and keep only
chunks of at least max(100, one tenth of the chunk size) characters.
The fuel is threaded to the loop; none records divergence. -/
def chunkText (cfg : SemanticChunker) (fuel : ℕ) (text : List Char)
    (metadata : Option ChunkMeta) : Option (List ChunkDict) :=
  if text.length < 50 then some []
  else
    match createOverlappingChunks cfg fuel text (findSemanticBoundaries text) metadata with
    | none => none
    | some chunks =>
      let min_chunk_size : PyFloat :=
        PyFloat.pymax (.ofInt 100) ((PyFloat.ofInt (cfg.chunk_size : ℤ)).mul ⟨1, 10⟩)
      some (chunks.filter (fun c => decide (PyFloat.Le min_chunk_size (.ofInt (c.size : ℤ)))))

/-- The 280-character text of the overlap counterexample: a sentence of
120 characters whose blank line sits at position 110 and which ends with
a period and a space at positions 119 and 120, followed by a second
sentence whose blank line sits at absolute position 170.  Its semantic
boundaries are exactly 110 and 170, there are no domain-vocabulary
words, and the only sentence split is at the period-space pair. -/
def overlapCounterexampleText : List Char :=
  List.replicate 110 'q' ++ ['\n', '\n'] ++ List.replicate 7 'q' ++ ['.', ' ']
    ++ List.replicate 49 'q' ++ ['\n', '\n'] ++ List.replicate 108 'q'

/-! ## Theorems: the cache store -/

set_option maxRecDepth 8000

/-- The eviction loop drops exactly the leading overflow. -/
theorem evictWhile_eq_drop (m : ℕ) (l : List (String × CacheEntry α)) :
    evictWhile m l = l.drop (l.length - m) := by
  induction l with
  | nil => simp [evictWhile]
  | cons p rest ih =>
    simp only [evictWhile, List.length_cons]
    by_cases h : m < rest.length + 1
    · rw [if_pos h, ih]
      have h2 : rest.length + 1 - m = (rest.length - m) + 1 := by omega
      rw [h2, List.drop_succ_cons]
    · rw [if_neg h]
      have h2 : rest.length + 1 - m = 0 := by omega
      rw [h2, List.drop_zero]

/-- After eviction the store size is within the bound. -/
theorem length_evictWhile_le (m : ℕ) (l : List (String × CacheEntry α)) :
    (evictWhile m l).length ≤ m := by
  rw [evictWhile_eq_drop, List.length_drop]
  omega

/-- After a set on a store of capacity at least one, the store is a
prefix free of the written key followed by the fresh binding at the
most-recently-used end. -/
theorem set_cache_structure (md5 : String → String) (c : InMemoryCache α)
    (key : CacheKey) (v : α) (t : PyFloat) (hm : 1 ≤ c.max_size) :
    ∃ F : List (String × CacheEntry α),
      (c.set md5 key v t).cache = F ++ [(generateKey md5 key, mkCacheEntry v t)] ∧
        ∀ p ∈ F, (p.1 == generateKey md5 key) = false := by
  refine ⟨(removeKey (generateKey md5 key) c.cache).drop
      ((removeKey (generateKey md5 key) c.cache).length + 1 - c.max_size), ?_, ?_⟩
  · show evictWhile c.max_size
        (removeKey (generateKey md5 key) c.cache ++ [(generateKey md5 key, mkCacheEntry v t)]) = _
    rw [evictWhile_eq_drop]
    have hlen : (removeKey (generateKey md5 key) c.cache ++
        [(generateKey md5 key, mkCacheEntry v t)]).length
        = (removeKey (generateKey md5 key) c.cache).length + 1 := by simp
    rw [hlen, List.drop_append_of_le_length (by omega)]
  · intro p hp
    have hmem : p ∈ removeKey (generateKey md5 key) c.cache := List.mem_of_mem_drop hp
    have := List.of_mem_filter hmem
    simpa using this

/-- Looking a key up when the only binding of that key is the last. -/
theorem lookupKey_append_sentinel (k : String) (e : CacheEntry α)
    (F : List (String × CacheEntry α)) (hF : ∀ p ∈ F, (p.1 == k) = false) :
    lookupKey k (F ++ [(k, e)]) = some e := by
  unfold lookupKey
  rw [List.find?_append]
  have h1 : F.find? (fun p => p.1 == k) = none :=
    List.find?_eq_none.mpr (fun p hp => by simp [hF p hp])
  rw [h1]
  simp [List.find?]

/-- A key just written is found, bound to the fresh entry. -/
theorem lookupKey_set (md5 : String → String) (c : InMemoryCache α)
    (key : CacheKey) (v : α) (t : PyFloat) (hm : 1 ≤ c.max_size) :
    lookupKey (generateKey md5 key) (c.set md5 key v t).cache = some (mkCacheEntry v t) := by
  obtain ⟨F, hF1, hF2⟩ := set_cache_structure md5 c key v t hm
  rw [hF1]
  exact lookupKey_append_sentinel _ _ _ hF2

/-- Deleting a key removes every binding of it. -/
theorem lookupKey_removeKey (k : String) (l : List (String × CacheEntry α)) :
    lookupKey k (removeKey k l) = none := by
  unfold lookupKey removeKey
  rw [List.find?_eq_none.mpr]
  · rfl
  · intro p hp
    have := List.of_mem_filter hp
    simpa using this

/-- Setting leaves the capacity unchanged. -/
theorem set_max_size (md5 : String → String) (c : InMemoryCache α)
    (key : CacheKey) (v : α) (t : PyFloat) :
    (c.set md5 key v t).max_size = c.max_size := rfl

/-- Setting leaves the time-to-live unchanged. -/
theorem set_ttl_seconds (md5 : String → String) (c : InMemoryCache α)
    (key : CacheKey) (v : α) (t : PyFloat) :
    (c.set md5 key v t).ttl_seconds = c.ttl_seconds := rfl

/-- Setting leaves the hit counter unchanged. -/
theorem set_hits (md5 : String → String) (c : InMemoryCache α)
    (key : CacheKey) (v : α) (t : PyFloat) :
    (c.set md5 key v t).hits = c.hits := rfl

/-- Setting leaves the miss counter unchanged. -/
theorem set_misses (md5 : String → String) (c : InMemoryCache α)
    (key : CacheKey) (v : α) (t : PyFloat) :
    (c.set md5 key v t).misses = c.misses := rfl

/-- The creation timestamp of a fresh entry. -/
theorem mkCacheEntry_timestamp (v : α) (t : PyFloat) :
    (mkCacheEntry v t).timestamp = t := rfl

/-- A get of a fresh, unexpired entry returns the stored payload (the
shared lemma behind the key-normalization claims). -/
theorem get_after_set (md5 : String → String) (c : InMemoryCache α) (k1 k2 : CacheKey)
    (v : α) (t tq : PyFloat)
    (hkey : generateKey md5 k2 = generateKey md5 k1)
    (hm : 1 ≤ c.max_size)
    (ht : ¬ PyFloat.Lt c.ttl_seconds (tq.sub t)) :
    ((c.set md5 k1 v t).get md5 k2 tq).1 = some v := by
  unfold InMemoryCache.get
  rw [hkey]
  simp only [lookupKey_set md5 c k1 v t hm, set_ttl_seconds, mkCacheEntry_timestamp]
  rw [if_neg ht]
  rfl

/-- Claim C8: cache key derivation is field-order independent for mapping
keys: for every value v, a set with key a-to-1, b-to-2 followed by a get
with the same fields in the opposite order resolves to the same entry and
returns v, because mapping keys are serialized with sorted fields before
hashing (stated for every digest function, every starting store of
capacity at least one, and every non-expiring pair of times). -/
theorem claim_C8_key_order (md5 : String → String) (c : InMemoryCache α) (v : α)
    (t tq : PyFloat) (hm : 1 ≤ c.max_size)
    (ht : ¬ PyFloat.Lt c.ttl_seconds (tq.sub t)) :
    ((c.set md5 (.dict [("a", .jint 1), ("b", .jint 2)]) v t).get md5
      (.dict [("b", .jint 2), ("a", .jint 1)]) tq).1 = some v :=
  get_after_set md5 c _ _ v t tq rfl hm ht

/-- Witness for claim C8 at a concrete store, value and digest. -/
theorem claim_C8_witness :
    (((InMemoryCache.init ℕ 2 (.ofInt 60)).set (fun s => s)
        (.dict [("a", .jint 1), ("b", .jint 2)]) 7 (.ofInt 0)).get (fun s => s)
      (.dict [("b", .jint 2), ("a", .jint 1)]) (.ofInt 5)).1 = some 7 :=
  claim_C8_key_order (fun s => s) (InMemoryCache.init ℕ 2 (.ofInt 60)) 7
    (.ofInt 0) (.ofInt 5) (by decide) (by decide)

/-- Claim C10: query-cache lookups normalize the query by lowercasing and
stripping surrounding whitespace before key derivation: a stored result
is returned for any query with the same normalization and the same
context hash. -/
theorem claim_C10_query_normalization (md5 : String → String) (qc : QueryCache α)
    (q1 q2 : String) (h : Option String) (v : α) (t tq : PyFloat)
    (hnorm : pyStrip (pyLower q1) = pyStrip (pyLower q2))
    (hm : 1 ≤ qc.cache.max_size)
    (ht : ¬ PyFloat.Lt qc.cache.ttl_seconds (tq.sub t)) :
    ((qc.setQueryResult md5 q2 v h t).getQueryResult md5 q1 h tq).1 = some v := by
  show ((qc.cache.set md5 (queryCacheKey q2 h) v t).get md5 (queryCacheKey q1 h) tq).1 = some v
  exact get_after_set md5 qc.cache _ _ v t tq
    (by unfold queryCacheKey; rw [hnorm]) hm ht

/-- Witness for claim C10: a query differing from the stored one in case
and surrounding whitespace returns the cached result. -/
theorem claim_C10_witness :
    (((QueryCache.init ℕ 200 (.ofInt 1800)).setQueryResult (fun s => s) "hello" 3 none
        (.ofInt 0)).getQueryResult (fun s => s) "  Hello " none (.ofInt 0)).1 = some 3 :=
  claim_C10_query_normalization (fun s => s) (QueryCache.init ℕ 200 (.ofInt 1800))
    "  Hello " "hello" none 3 (.ofInt 0) (.ofInt 0) rfl (by decide) (by decide)

/-- Claim C4: for every key set at time t0 into a store of capacity at
least one, a get on that key at a time t1 strictly after t0 plus the
time-to-live returns absent, the expired entry is removed by that get
(the key no longer resolves), the expired get is counted as a miss and
not as a hit, and subsequent stats report one entry fewer. -/
theorem claim_C4_ttl_expiry (md5 : String → String) (c : InMemoryCache α) (key : CacheKey)
    (v : α) (t0 t1 : PyFloat) (hm : 1 ≤ c.max_size)
    (hexp : PyFloat.Lt c.ttl_seconds (t1.sub t0)) :
    ((c.set md5 key v t0).get md5 key t1).1 = none ∧
    lookupKey (generateKey md5 key) ((c.set md5 key v t0).get md5 key t1).2.cache = none ∧
    ((c.set md5 key v t0).get md5 key t1).2.misses = (c.set md5 key v t0).misses + 1 ∧
    ((c.set md5 key v t0).get md5 key t1).2.hits = (c.set md5 key v t0).hits ∧
    ((c.set md5 key v t0).get md5 key t1).2.getStats.entries
      = (c.set md5 key v t0).getStats.entries - 1 := by
  unfold InMemoryCache.get
  simp only [lookupKey_set md5 c key v t0 hm, set_ttl_seconds, mkCacheEntry_timestamp]
  rw [if_pos hexp]
  refine ⟨rfl, ?_, rfl, rfl, ?_⟩
  · exact lookupKey_removeKey _ _
  · show (removeKey (generateKey md5 key) (c.set md5 key v t0).cache).length
      = (c.set md5 key v t0).cache.length - 1
    obtain ⟨F, hF1, hF2⟩ := set_cache_structure md5 c key v t0 hm
    rw [hF1]
    unfold removeKey
    rw [List.filter_append]
    rw [List.filter_eq_self.mpr (fun p hp => by simp [hF2 p hp])]
    simp

/-- Witness for claim C4 at a concrete store and times. -/
theorem claim_C4_witness :
    ((((InMemoryCache.init ℕ 1 (.ofInt 10)).set (fun s => s) (.str "k") 5 (.ofInt 0)).get
        (fun s => s) (.str "k") (.ofInt 11)).1 = none) ∧
    ((((InMemoryCache.init ℕ 1 (.ofInt 10)).set (fun s => s) (.str "k") 5 (.ofInt 0)).get
        (fun s => s) (.str "k") (.ofInt 11)).2.misses
      = ((InMemoryCache.init ℕ 1 (.ofInt 10)).set (fun s => s) (.str "k") 5 (.ofInt 0)).misses + 1) := by
  have h := claim_C4_ttl_expiry (fun s => s) (InMemoryCache.init ℕ 1 (.ofInt 10))
    (.str "k") 5 (.ofInt 0) (.ofInt 11) (by decide) (by decide)
  exact ⟨h.1, h.2.2.1⟩

/-- One cache operation keeps the store within its capacity and leaves
the capacity unchanged. -/
theorem applyOp_preserves (md5 : String → String) (c : InMemoryCache α) (op : CacheOp α)
    (h : c.cache.length ≤ c.max_size) :
    (applyOp md5 c op).cache.length ≤ (applyOp md5 c op).max_size ∧
      (applyOp md5 c op).max_size = c.max_size := by
  cases op with
  | set k v t =>
    refine ⟨?_, rfl⟩
    show (evictWhile c.max_size _).length ≤ c.max_size
    exact length_evictWhile_le _ _
  | clear => exact ⟨Nat.zero_le _, rfl⟩
  | get k tq =>
    have hmax : ((c.get md5 k tq).2).max_size = c.max_size := by
      unfold InMemoryCache.get
      rcases hl : lookupKey (generateKey md5 k) c.cache with _ | e
      · simp only [hl]
      · simp only [hl]
        by_cases hexp : PyFloat.Lt c.ttl_seconds (tq.sub e.timestamp)
        · rw [if_pos hexp]
        · rw [if_neg hexp]
    refine ⟨?_, hmax⟩
    have hlen : ((c.get md5 k tq).2).cache.length ≤ c.max_size := by
      unfold InMemoryCache.get
      rcases hl : lookupKey (generateKey md5 k) c.cache with _ | e
      · simp only [hl]; exact h
      · simp only [hl]
        by_cases hexp : PyFloat.Lt c.ttl_seconds (tq.sub e.timestamp)
        · rw [if_pos hexp]
          exact le_trans (List.length_filter_le _ _) h
        · rw [if_neg hexp]
          show (removeKey (generateKey md5 k) c.cache ++ [_]).length ≤ c.max_size
          obtain ⟨p, hfind, hp2⟩ := Option.map_eq_some'.mp hl
          have hmem : p ∈ c.cache := List.mem_of_find?_eq_some hfind
          have hpk := List.find?_some hfind
          have hlt : (removeKey (generateKey md5 k) c.cache).length < c.cache.length := by
            unfold removeKey
            exact List.length_filter_lt_length_iff_exists.mpr ⟨p, hmem, by simp [hpk]⟩
          simp only [List.length_append, List.length_singleton]
          omega
    show ((c.get md5 k tq).2).cache.length ≤ ((c.get md5 k tq).2).max_size
    rw [hmax]
    exact hlen

/-- The capacity invariant is preserved along any operation sequence. -/
theorem applyOps_inv (md5 : String → String) (ops : List (CacheOp α)) :
    ∀ c : InMemoryCache α, c.cache.length ≤ c.max_size →
      (applyOps md5 c ops).cache.length ≤ (applyOps md5 c ops).max_size := by
  induction ops with
  | nil => intro c h; exact h
  | cons op ops ih =>
    intro c h
    exact ih _ (applyOp_preserves md5 c op h).1

/-- Claim C6: for every sequence of get, set and clear operations on a
store satisfying the capacity bound, the number of stored entries is at
most max_size after every operation completes (stated for every prefix
of the sequence, so for the state after each operation). -/
theorem claim_C6_capacity (md5 : String → String) (ops : List (CacheOp α))
    (c : InMemoryCache α) (h : c.cache.length ≤ c.max_size) (i : ℕ) :
    (applyOps md5 c (ops.take i)).cache.length
      ≤ (applyOps md5 c (ops.take i)).max_size :=
  applyOps_inv md5 (ops.take i) c h

/-- Witness for claim C6: three sets and a get on a store of capacity
one. -/
theorem claim_C6_witness :
    (applyOps (fun s => s) (InMemoryCache.init ℕ 1 (.ofInt 5))
      (([CacheOp.set (.str "a") 1 (.ofInt 0), CacheOp.set (.str "b") 2 (.ofInt 0),
         CacheOp.get (.str "a") (.ofInt 0), CacheOp.set (.str "c") 3 (.ofInt 0)]).take 4)).cache.length
      ≤ (applyOps (fun s => s) (InMemoryCache.init ℕ 1 (.ofInt 5))
      (([CacheOp.set (.str "a") 1 (.ofInt 0), CacheOp.set (.str "b") 2 (.ofInt 0),
         CacheOp.get (.str "a") (.ofInt 0), CacheOp.set (.str "c") 3 (.ofInt 0)]).take 4)).max_size :=
  claim_C6_capacity (fun s => s) _ _ (by decide) 4

/-- Claim C3: the store implements strict LRU with get-promotion.  With
max_size two, the sequence set A, set B, get A, set C leaves the store
containing exactly the keys of A and C, in that order from least to most
recently used: B was evicted because the get promoted A (stated for
every digest function with distinct digests for the three keys, every
nonnegative time-to-live, and operations at one time). -/
theorem claim_C3_lru_promotion (md5 : String → String) (ttl t : PyFloat)
    (A B C : CacheKey) (vA vB vC : α)
    (httl : PyFloat.Le (.ofInt 0) ttl)
    (hAB : generateKey md5 A ≠ generateKey md5 B)
    (hAC : generateKey md5 A ≠ generateKey md5 C)
    (hBC : generateKey md5 B ≠ generateKey md5 C) :
    (((((InMemoryCache.init α 2 ttl).set md5 A vA t).set md5 B vB t).get md5 A t).2.set
        md5 C vC t).cache.map Prod.fst
      = [generateKey md5 A, generateKey md5 C] := by
  have hexp : ¬ PyFloat.Lt ttl (t.sub t) := by
    unfold PyFloat.Lt PyFloat.sub PyFloat.Le PyFloat.ofInt at *
    simp only [] at httl ⊢
    intro hcon
    simp only [sub_self, zero_mul] at hcon
    nlinarith [mul_self_nonneg t.den]
  have hABb : (generateKey md5 A == generateKey md5 B) = false := beq_eq_false_iff_ne.mpr hAB
  have hACb : (generateKey md5 A == generateKey md5 C) = false := beq_eq_false_iff_ne.mpr hAC
  have hBCb : (generateKey md5 B == generateKey md5 C) = false := beq_eq_false_iff_ne.mpr hBC
  have hBAb : (generateKey md5 B == generateKey md5 A) = false :=
    beq_eq_false_iff_ne.mpr hAB.symm
  have hCAb : (generateKey md5 C == generateKey md5 A) = false :=
    beq_eq_false_iff_ne.mpr hAC.symm
  have hCBb : (generateKey md5 C == generateKey md5 B) = false :=
    beq_eq_false_iff_ne.mpr hBC.symm
  simp [InMemoryCache.init, InMemoryCache.set, InMemoryCache.get, lookupKey, removeKey,
    evictWhile, mkCacheEntry, List.filter, List.find?, hABb, hACb, hBCb, hBAb, hCAb, hCBb, hexp]

/-- Witness for claim C3 with the identity digest and three string keys. -/
theorem claim_C3_witness :
    (((((InMemoryCache.init ℕ 2 (.ofInt 60)).set (fun s => s) (.str "a") 1 (.ofInt 0)).set
          (fun s => s) (.str "b") 2 (.ofInt 0)).get (fun s => s) (.str "a") (.ofInt 0)).2.set
        (fun s => s) (.str "c") 3 (.ofInt 0)).cache.map Prod.fst = ["a", "c"] :=
  claim_C3_lru_promotion (fun s => s) (.ofInt 60) (.ofInt 0) (.str "a") (.str "b") (.str "c")
    1 2 3 (by decide) (by decide) (by decide) (by decide)

/-! ## Theorems: batch embedding generation -/

/-- The inner batch loop returns one vector per input text. -/
theorem embedListSync_length (M : CacheModel σ) (provider : String → Option Vec) :
    ∀ (ts : List String) (st : σ), (embedListSync M provider ts st).1.length = ts.length := by
  intro ts
  induction ts with
  | nil => intro st; rfl
  | cons t ts ih =>
    intro st
    simp only [embedListSync, List.length_cons]
    rw [ih]

/-- The sync batch driver returns one vector per input text. -/
theorem generateEmbeddings_length (M : CacheModel σ) (provider : String → Option Vec)
    (bs : ℕ) (hbs : 1 ≤ bs) :
    ∀ (n : ℕ) (ts : List String) (st : σ), ts.length ≤ n →
      (generateEmbeddings M provider bs ts st).1.length = ts.length := by
  intro n
  induction n with
  | zero =>
    intro ts st hlen
    have h0 : ts = [] := List.eq_nil_of_length_eq_zero (Nat.le_zero.mp hlen)
    subst h0
    simp [generateEmbeddings]
  | succ n ih =>
    intro ts st hlen
    cases ts with
    | nil => simp [generateEmbeddings]
    | cons t ts2 =>
      have hbs0 : ¬ (bs = 0) := by omega
      simp only [generateEmbeddings, dif_neg hbs0, List.length_append]
      rw [embedListSync_length]
      have hdrop : ((t :: ts2).drop bs).length ≤ n := by
        simp only [List.length_drop, List.length_cons] at hlen ⊢
        omega
      rw [ih _ _ hdrop]
      simp only [List.length_take, List.length_drop, List.length_cons]
      omega

/-- On a cache that never hits, each sync text yields its provider vector,
or the 768-entry zero vector when the provider fails. -/
theorem embedListSync_miss (M : CacheModel σ) (provider : String → Option Vec)
    (hmiss : ∀ s k, M.getEmbedding s k = none) :
    ∀ (ts : List String) (st : σ),
      (embedListSync M provider ts st).1
        = ts.map (fun t => (provider (pyTake 1000 t)).getD
            (List.replicate 768 (PyFloat.ofInt 0))) := by
  intro ts
  induction ts with
  | nil => intro st; rfl
  | cons t ts ih =>
    intro st
    have hhead : ∀ st2 : σ, (embedOneSync M provider st2 t).1
        = (provider (pyTake 1000 t)).getD (List.replicate 768 (PyFloat.ofInt 0)) := by
      intro st2
      unfold embedOneSync
      simp only [hmiss]
      cases hp : provider (pyTake 1000 t) <;> simp [hp]
    simp only [embedListSync, List.map_cons]
    rw [hhead, ih]

/-- The sync batch driver on a cache that never hits. -/
theorem generateEmbeddings_miss (M : CacheModel σ) (provider : String → Option Vec)
    (bs : ℕ) (hbs : 1 ≤ bs) (hmiss : ∀ s k, M.getEmbedding s k = none) :
    ∀ (n : ℕ) (ts : List String) (st : σ), ts.length ≤ n →
      (generateEmbeddings M provider bs ts st).1
        = ts.map (fun t => (provider (pyTake 1000 t)).getD
            (List.replicate 768 (PyFloat.ofInt 0))) := by
  intro n
  induction n with
  | zero =>
    intro ts st hlen
    have h0 : ts = [] := List.eq_nil_of_length_eq_zero (Nat.le_zero.mp hlen)
    subst h0
    simp [generateEmbeddings]
  | succ n ih =>
    intro ts st hlen
    cases ts with
    | nil => simp [generateEmbeddings]
    | cons t ts2 =>
      have hbs0 : ¬ (bs = 0) := by omega
      simp only [generateEmbeddings, dif_neg hbs0]
      rw [embedListSync_miss M provider hmiss]
      have hdrop : ((t :: ts2).drop bs).length ≤ n := by
        simp only [List.length_drop, List.length_cons] at hlen ⊢
        omega
      rw [ih _ _ hdrop, ← List.map_append, List.take_append_drop]

/-- One async task yields its provider vector on a cache that never hits,
or the zero vector after result handling. -/
theorem gatherBatchAsync_miss (M : CacheModel σ) (provider : String → Option Vec)
    (tt : String) (hmiss : ∀ s k, M.getEmbedding s k = none) :
    ∀ (ts : List String) (st : σ),
      (gatherBatchAsync M provider tt ts st).1
        = ts.map (fun t => (provider (pyTake 1000 t)).getD
            (List.replicate 768 (PyFloat.ofInt 0))) := by
  intro ts
  induction ts with
  | nil => intro st; rfl
  | cons t ts ih =>
    intro st
    have hhead : ∀ st2 : σ,
        (match (generateSingleEmbedding M provider tt st2 t).1 with
          | some embedding => embedding
          | none => List.replicate 768 (PyFloat.ofInt 0))
        = (provider (pyTake 1000 t)).getD (List.replicate 768 (PyFloat.ofInt 0)) := by
      intro st2
      unfold generateSingleEmbedding
      simp only [hmiss]
      cases hp : provider (pyTake 1000 t) <;> simp [hp]
    simp only [gatherBatchAsync, List.map_cons]
    rw [hhead, ih]

/-- One async gathered batch returns one vector per input text. -/
theorem gatherBatchAsync_length (M : CacheModel σ) (provider : String → Option Vec)
    (tt : String) :
    ∀ (ts : List String) (st : σ),
      (gatherBatchAsync M provider tt ts st).1.length = ts.length := by
  intro ts
  induction ts with
  | nil => intro st; rfl
  | cons t ts ih =>
    intro st
    simp only [gatherBatchAsync, List.length_cons]
    rw [ih]

/-- The async batch driver returns one vector per input text. -/
theorem generateBatchEmbeddings_length (M : CacheModel σ) (provider : String → Option Vec)
    (tt : String) (bs : ℕ) (hbs : 1 ≤ bs) :
    ∀ (n : ℕ) (ts : List String) (st : σ), ts.length ≤ n →
      (generateBatchEmbeddings M provider tt bs ts st).1.length = ts.length := by
  intro n
  induction n with
  | zero =>
    intro ts st hlen
    have h0 : ts = [] := List.eq_nil_of_length_eq_zero (Nat.le_zero.mp hlen)
    subst h0
    simp [generateBatchEmbeddings]
  | succ n ih =>
    intro ts st hlen
    cases ts with
    | nil => simp [generateBatchEmbeddings]
    | cons t ts2 =>
      have hbs0 : ¬ (bs = 0) := by omega
      simp only [generateBatchEmbeddings, dif_neg hbs0, List.length_append]
      rw [gatherBatchAsync_length]
      have hdrop : ((t :: ts2).drop bs).length ≤ n := by
        simp only [List.length_drop, List.length_cons] at hlen ⊢
        omega
      rw [ih _ _ hdrop]
      simp only [List.length_take, List.length_drop, List.length_cons]
      omega

/-- The async batch driver on a cache that never hits. -/
theorem generateBatchEmbeddings_miss (M : CacheModel σ) (provider : String → Option Vec)
    (tt : String) (bs : ℕ) (hbs : 1 ≤ bs) (hmiss : ∀ s k, M.getEmbedding s k = none) :
    ∀ (n : ℕ) (ts : List String) (st : σ), ts.length ≤ n →
      (generateBatchEmbeddings M provider tt bs ts st).1
        = ts.map (fun t => (provider (pyTake 1000 t)).getD
            (List.replicate 768 (PyFloat.ofInt 0))) := by
  intro n
  induction n with
  | zero =>
    intro ts st hlen
    have h0 : ts = [] := List.eq_nil_of_length_eq_zero (Nat.le_zero.mp hlen)
    subst h0
    simp [generateBatchEmbeddings]
  | succ n ih =>
    intro ts st hlen
    cases ts with
    | nil => simp [generateBatchEmbeddings]
    | cons t ts2 =>
      have hbs0 : ¬ (bs = 0) := by omega
      simp only [generateBatchEmbeddings, dif_neg hbs0]
      rw [gatherBatchAsync_miss M provider tt hmiss]
      have hdrop : ((t :: ts2).drop bs).length ≤ n := by
        simp only [List.length_drop, List.length_cons] at hlen ⊢
        omega
      rw [ih _ _ hdrop, ← List.map_append, List.take_append_drop]

/-- Claim C5: for every list of input texts and every batch size of at
least one, the sync and async batch embedding generators return exactly
one vector per input text; and on a cache that never hits, the i-th
vector is the provider's vector for the i-th truncated text, with a
provider failure for a single text yielding the 768-entry zero vector at
that position instead of aborting the batch (the map form fixes both
order and the per-item fallback). -/
theorem claim_C5_batch_order (σ : Type) (M : CacheModel σ) (provider : String → Option Vec)
    (task_type : String) (batch_size : ℕ) (texts : List String) (st : σ)
    (hbs : 1 ≤ batch_size) :
    (generateEmbeddings M provider batch_size texts st).1.length = texts.length ∧
    (generateBatchEmbeddings M provider task_type batch_size texts st).1.length
      = texts.length ∧
    ((∀ s k, M.getEmbedding s k = none) →
      (generateEmbeddings M provider batch_size texts st).1
        = texts.map (fun t => (provider (pyTake 1000 t)).getD
            (List.replicate 768 (PyFloat.ofInt 0))) ∧
      (generateBatchEmbeddings M provider task_type batch_size texts st).1
        = texts.map (fun t => (provider (pyTake 1000 t)).getD
            (List.replicate 768 (PyFloat.ofInt 0)))) :=
  ⟨generateEmbeddings_length M provider batch_size hbs texts.length texts st le_rfl,
   generateBatchEmbeddings_length M provider task_type batch_size hbs texts.length texts st
     le_rfl,
   fun hmiss =>
    ⟨generateEmbeddings_miss M provider batch_size hbs hmiss texts.length texts st le_rfl,
     generateBatchEmbeddings_miss M provider task_type batch_size hbs hmiss texts.length
       texts st le_rfl⟩⟩

/-- Witness for claim C5: two texts, batch size one, a provider that
always fails, a cache that never hits: the batch is two zero vectors. -/
theorem claim_C5_witness :
    (generateEmbeddings ⟨fun _ _ => none, fun s _ _ => s⟩ (fun _ => none) 1 ["ab", "cd"] ()).1
      = [List.replicate 768 (PyFloat.ofInt 0), List.replicate 768 (PyFloat.ofInt 0)] := by
  have h := claim_C5_batch_order Unit ⟨fun _ _ => none, fun s _ _ => s⟩ (fun _ => none)
    "retrieval_document" 1 ["ab", "cd"] () (by decide)
  have h2 := (h.2.2 (fun _ _ => rfl)).1
  simpa using h2

/-! ## Theorems: answer attribution -/

/-- When every model call fails (raises or returns a falsy response), or
every response is undecodable, a segment mapping yields no Attribution:
the failure is caught inside the per-segment handler. -/
theorem mapSegment_none_of_fail (jsonLoads : String → Option (List (String × JValue)))
    (model : String → Option String)
    (hfail : (∀ p, model p = none) ∨ (∀ s, jsonLoads s = none))
    (question segment : String) (paragraphs : List Paragraph) :
    mapSegmentToParagraphs jsonLoads model question segment paragraphs = none := by
  unfold mapSegmentToParagraphs
  rcases hfail with hm | hj
  · simp only [hm]
  · cases hmod : model (createAttributionPrompt question segment paragraphs) with
    | none => simp only [hmod]
    | some text =>
      simp only [hmod]
      by_cases htext : text = ""
      · rw [if_pos htext]
      · rw [if_neg htext]
        unfold parseAttributionResponse
        cases hext : extractJson text.data with
        | none => simp only [hext]
        | some j => simp only [hext, hj]

/-- Claim C1 (amended): when every attribution-mapping model call fails,
or every model response is unparseable, create_attributed_answer still
returns a well-formed AttributedAnswer carrying the original answer and
paragraphs, but with an empty attribution list and overall confidence
zero: the per-segment handler catches each failure and drops the
segment, so the loop completes normally.  The single fallback
Attribution over the whole answer and all paragraph indices with
confidence one half and type synthesized (final conjunct) is produced
by the fallback constructor only when an exception escapes the segment
loop itself, which model-call and parse failures never do. -/
theorem claim_C1_fallback_amended (jsonLoads : String → Option (List (String × JValue)))
    (model : String → Option String) (question answer : String)
    (paragraphs : List Paragraph)
    (hfail : (∀ p, model p = none) ∨ (∀ s, jsonLoads s = none)) :
    (createAttributedAnswer jsonLoads model question answer paragraphs).answer = answer ∧
    (createAttributedAnswer jsonLoads model question answer paragraphs).paragraphs
      = paragraphs ∧
    (createAttributedAnswer jsonLoads model question answer paragraphs).attributions = [] ∧
    (createAttributedAnswer jsonLoads model question answer paragraphs).overall_confidence
      = .ofInt 0 ∧
    (createFallbackAttribution answer paragraphs).attributions
      = [{ answer_segment := answer,
           supporting_paragraphs := (List.range paragraphs.length).map (fun i => Int.ofNat i),
           confidence := ⟨1, 2⟩, attribution_type := .jstr "synthesized" }] := by
  have hfm : (splitAnswerIntoSegments answer).filterMap
      (fun segment => mapSegmentToParagraphs jsonLoads model question segment paragraphs)
      = [] := by
    rw [List.filterMap_eq_nil_iff]
    intro seg hseg
    exact mapSegment_none_of_fail jsonLoads model hfail question seg paragraphs
  refine ⟨rfl, rfl, hfm, ?_, rfl⟩
  show calculateOverallConfidence ((splitAnswerIntoSegments answer).filterMap
      (fun segment => mapSegmentToParagraphs jsonLoads model question segment paragraphs))
    = .ofInt 0
  rw [hfm]
  rfl

/-- Counterexample to claim C1 as stated: with a model whose every call
raises, create_attributed_answer applied to a sixty-character answer and
one paragraph returns an AttributedAnswer with NO Attribution at all, so
it does not contain the claimed fallback Attribution. -/
theorem claim_C1_counterexample :
    (createAttributedAnswer (fun _ => none) (fun _ => none) "q"
      (⟨List.replicate 60 'x'⟩ : String)
      [{ title := "T", content := "C", paragraph_index := 0, source_chunk_index := 0,
         document_name := "D" }]).attributions = [] := by
  rfl

/-- Witness for the amended claim C1, with a decoder that always fails. -/
theorem claim_C1_witness :
    (createAttributedAnswer (fun _ => none) (fun _ => some "x") "q2" "a" []).attributions
      = [] ∧
    (createAttributedAnswer (fun _ => none) (fun _ => some "x") "q2" "a" []).overall_confidence
      = .ofInt 0 := by
  have h := claim_C1_fallback_amended (fun _ => none) (fun _ => some "x") "q2" "a" []
    (Or.inr (fun _ => rfl))
  exact ⟨h.2.2.1, h.2.2.2.1⟩

/-- A parsed attribution has a nonempty index list, and every index lies
within the paragraph range: out-of-range indices are discarded by the
validation filter, and a response with no valid index yields none. -/
theorem parse_valid_indices (jsonLoads : String → Option (List (String × JValue)))
    (response segment : String) (total : ℕ) (attr : Attribution)
    (hp : parseAttributionResponse jsonLoads response segment total = some attr) :
    attr.supporting_paragraphs ≠ [] ∧
      ∀ idx ∈ attr.supporting_paragraphs, 0 ≤ idx ∧ idx < (total : ℤ) := by
  unfold parseAttributionResponse at hp
  cases hext : extractJson response.data with
  | none => simp only [hext] at hp; exact absurd hp (by simp)
  | some jchars =>
    simp only [hext] at hp
    cases hjl : jsonLoads ⟨jchars⟩ with
    | none => simp only [hjl] at hp; exact absurd hp (by simp)
    | some ad =>
      simp only [hjl] at hp
      cases hcf : pyFloat ((dictGet ad "confidence").getD (.jfloat (.ofInt 0))) with
      | none => simp only [hcf] at hp; exact absurd hp (by simp)
      | some conf =>
        simp only [hcf] at hp
        split at hp
        · exact absurd hp (by simp)
        · rename_i hvne
          rw [Option.some_inj] at hp
          subst hp
          refine ⟨hvne, ?_⟩
          intro idx hidx
          have := List.of_mem_filter hidx
          simpa using this

/-- Claim C7: every Attribution produced by the attribution mapper, both
parsed segment mappings and the fallback, has all supporting indices
within the paragraph range; out-of-range indices in a model response are
discarded; and a segment whose response has no valid index yields no
Attribution at all rather than an empty or zero-filled one (the parsed
index list is provably nonempty). -/
theorem claim_C7_index_validity (jsonLoads : String → Option (List (String × JValue)))
    (model : String → Option String) (question answer : String)
    (paragraphs : List Paragraph) :
    (∀ attr ∈ (createAttributedAnswer jsonLoads model question answer paragraphs).attributions,
        attr.supporting_paragraphs ≠ [] ∧
        ∀ idx ∈ attr.supporting_paragraphs, 0 ≤ idx ∧ idx < (paragraphs.length : ℤ)) ∧
    (∀ (response segment : String) (total : ℕ) (attr : Attribution),
        parseAttributionResponse jsonLoads response segment total = some attr →
          attr.supporting_paragraphs ≠ [] ∧
          ∀ idx ∈ attr.supporting_paragraphs, 0 ≤ idx ∧ idx < (total : ℤ)) ∧
    (∀ ans : String, ∀ attr ∈ (createFallbackAttribution ans paragraphs).attributions,
        ∀ idx ∈ attr.supporting_paragraphs, 0 ≤ idx ∧ idx < (paragraphs.length : ℤ)) := by
  refine ⟨?_, fun r s tot a hp => parse_valid_indices jsonLoads r s tot a hp, ?_⟩
  · intro attr hmem
    have hmem2 : ∃ seg ∈ splitAnswerIntoSegments answer,
        mapSegmentToParagraphs jsonLoads model question seg paragraphs = some attr := by
      simpa using List.mem_filterMap.mp hmem
    obtain ⟨seg, _, hseg⟩ := hmem2
    unfold mapSegmentToParagraphs at hseg
    cases hmod : model (createAttributionPrompt question seg paragraphs) with
    | none => simp only [hmod] at hseg; exact absurd hseg (by simp)
    | some text =>
      simp only [hmod] at hseg
      by_cases htext : text = ""
      · rw [if_pos htext] at hseg; exact absurd hseg (by simp)
      · rw [if_neg htext] at hseg
        exact parse_valid_indices jsonLoads text seg paragraphs.length attr hseg
  · intro ans attr hmem idx hidx
    have ha : attr = Attribution.mk ans
        ((List.range paragraphs.length).map (fun i => Int.ofNat i)) ⟨1, 2⟩
        (.jstr "synthesized") := by
      simpa [createFallbackAttribution] using hmem
    subst ha
    obtain ⟨i, hi, hix⟩ := List.mem_map.mp hidx
    have hi2 : i < paragraphs.length := List.mem_range.mp hi
    subst hix
    refine ⟨Int.ofNat_nonneg i, ?_⟩
    show (i : ℤ) < (paragraphs.length : ℤ)
    exact_mod_cast hi2

/-- Witness for claim C7: a concrete decoded response carrying the
indices zero, five and minus one against two paragraphs parses to the
single valid index zero, which the claim theorem bounds. -/
theorem claim_C7_witness :
    parseAttributionResponse
      (fun _ => some [("supporting_paragraph_indices", .jarr [.jint 0, .jint 5, .jint (-1)]),
                      ("confidence", .jfloat ⟨9, 10⟩), ("attribution_type", .jstr "direct")])
      "x\x7by\x7dz" "seg" 2
      = some (Attribution.mk "seg" [0] ⟨9, 10⟩ (.jstr "direct")) ∧
    (∀ idx ∈ (Attribution.mk "seg" [0] ⟨9, 10⟩
        (.jstr "direct")).supporting_paragraphs,
      0 ≤ idx ∧ idx < ((2 : ℕ) : ℤ)) := by
  have h := (claim_C7_index_validity
    (fun _ => some [("supporting_paragraph_indices", .jarr [.jint 0, .jint 5, .jint (-1)]),
                    ("confidence", .jfloat ⟨9, 10⟩), ("attribution_type", .jstr "direct")])
    (fun _ => none) "q" "a" ([] : List Paragraph)).2.1
    "x\x7by\x7dz" "seg" 2
    (Attribution.mk "seg" [0] ⟨9, 10⟩ (.jstr "direct")) (by rfl)
  exact ⟨by rfl, h.2⟩

/-! ## Theorems: the semantic chunker -/

/-- Claim C2 (amended): the computed advance position
next_start = max(chunk_end - overlap_size, chunk_start + 1) never backs
up by more than overlap_size from the chunk end, and always makes
strict progress past the chunk start; overlap_size itself is
int(chunk_size * overlap_ratio) with the UNCAPPED constructor ratio (the
capped ratio is stored but unused).  The realized start of the next
chunk, however, is the last semantic boundary at or before next_start
and may lie strictly earlier, so adjacent emitted chunks can overlap by
more than overlap_size (see the counterexample). -/
theorem claim_C2_overlap_amended (cfg : SemanticChunker) (chunk_start chunk_end : ℕ) :
    (chunk_end : ℤ) - (nextStartOf cfg chunk_start chunk_end : ℤ) ≤ (cfg.overlap_size : ℤ) ∧
    chunk_start < nextStartOf cfg chunk_start chunk_end := by
  unfold nextStartOf
  rcases le_total (chunk_end - cfg.overlap_size) (chunk_start + 1) with h | h
  · rw [max_eq_right h]
    constructor
    · push_cast
      omega
    · omega
  · rw [max_eq_left h]
    constructor
    · omega
    · omega

/-- Counterexample to claim C2 as stated: with chunk size 200 and
overlap ratio one tenth, chunk_text on the 280-character text emits the
adjacent chunks [0, 170) and [110, 280): their overlap is 60 characters,
exceeding overlap_size = 20 = 200 * min(1/10, 1/2).  The second chunk's
start snapped back to the semantic boundary 110, far before the
computed advance position 150. -/
theorem claim_C2_counterexample :
    (chunkText (SemanticChunker.init 200 ⟨1, 10⟩) 10 overlapCounterexampleText none).map
      (fun cs => cs.map (fun c => (c.start_idx, c.end_idx)))
      = some [(0, 170), (110, 280)] ∧
    (SemanticChunker.init 200 ⟨1, 10⟩).overlap_size = 20 ∧
    PyFloat.toRat ⟨1, 10⟩ = 1/10 ∧
    ((170 - 110 : ℚ) > 200 * min (1/10 : ℚ) (1/2)) := by
  refine ⟨by rfl, by rfl, ?_, by norm_num⟩
  unfold PyFloat.toRat
  norm_num

/-- Claim C9 refutation: the boundary-walking loop of chunk_text does
not always terminate.  On 150 identical letters with chunk size 100 and
overlap ratio one tenth, the boundary index computed for the next
iteration is again zero on every pass (there is no boundary at or
before the advance position beyond the current start), so for EVERY
amount of fuel the loop is still running: the source while-loop runs
forever, re-emitting the same [0, 100) chunk. -/
theorem claim_C9_divergence :
    ∀ fuel : ℕ, chunkText (SemanticChunker.init 100 ⟨1, 10⟩) fuel
      (List.replicate 150 'a') none = none := by
  have hstep : (chunkStep (SemanticChunker.init 100 ⟨1, 10⟩) (List.replicate 150 'a')
      [0, 150] none 0).2 = some 0 := by rfl
  have hloop : ∀ (fuel : ℕ) (chunks : List ChunkDict),
      chunkLoop (SemanticChunker.init 100 ⟨1, 10⟩) (List.replicate 150 'a') [0, 150] none
        fuel 0 chunks = none := by
    intro fuel
    induction fuel with
    | zero => intro chunks; rfl
    | succ n ih =>
      intro chunks
      have hpair : chunkStep (SemanticChunker.init 100 ⟨1, 10⟩) (List.replicate 150 'a')
          [0, 150] none 0
          = ((chunkStep (SemanticChunker.init 100 ⟨1, 10⟩) (List.replicate 150 'a')
              [0, 150] none 0).1, some 0) := by
        rw [← hstep]
      simp only [chunkLoop]
      rw [if_pos (by decide : 0 + 1 < ([0, 150] : List ℕ).length)]
      rw [hpair]
      exact ih _
  intro fuel
  have hb : findSemanticBoundaries (List.replicate 150 'a') = [] := by rfl
  unfold chunkText
  rw [if_neg (by decide : ¬ ((List.replicate 150 'a').length < 50))]
  rw [hb]
  unfold createOverlappingChunks
  have hall : sortNats ((([0] ++ [] ++ [(List.replicate 150 'a').length]).foldl
      dedupInsertNat [])) = [0, 150] := by rfl
  rw [hall, hloop fuel []]

end MedMind
